import Mathlib

/-!
Shallow embedding of the RPG game sources (`rpg_game/weapon.py`,
`rpg_game/character.py`, `rpg_game/inventory.py`) and proofs of the
specification claims about them.

Conventions of the embedding:
* Python `int` fields become `Int`, Python non-negative counts become `Nat`,
  Python `float` weights become `ℚ` (the spec reads them as exact reals).
* Mutating methods become functions returning the updated state (together
  with the Python return value, when there is one).
* Object references are modelled by value: an in-place mutation of an object
  that sits in a list is rendered as replacing the first list entry equal to
  that object's value.
* The injected source of randomness (spec §5) is a `Bool` parameter telling
  which branch the roll took.
-/

namespace RPG

/-! ## Combat weapons, `rpg_game/weapon.py` -/

inductive WeaponKind where
  | rock | paper | scissors | lizard | spock
deriving DecidableEq, Repr, Fintype

/-- `Weapon` of `weapon.py`: a name, a flat damage bonus, and (through the
subclass) one of the five kinds. -/
structure CombatWeapon where
  name : String
  damage_bonus : Int
  kind : WeaponKind
deriving DecidableEq, Repr

def Rock : CombatWeapon := ⟨"Rock", 5, .rock⟩

def Paper : CombatWeapon := ⟨"Paper", 3, .paper⟩

def Scissors : CombatWeapon := ⟨"Scissors", 4, .scissors⟩

def Lizard : CombatWeapon := ⟨"Lizard", 3, .lizard⟩

def Spock : CombatWeapon := ⟨"Spock", 5, .spock⟩

/-- Verdict of a weapon matchup, as produced by the `use` methods:
a "Critical hit!" message, a "Not very effective..." message, or the
neutral fallback message. -/
inductive Verdict where
  | critical | notEffective | neutral
deriving DecidableEq, Repr

/-- The branch structure of `Rock.use` / `Paper.use` / `Scissors.use` /
`Lizard.use` / `Spock.use` (weapon.py lines 49-151): each method tests the
target's equipped weapon kind with `isinstance`, first for its critical
list, then for its weak list, else the neutral fallback.  A target with no
weapon (`target.weapon is None`) fails every `isinstance` test and lands in
the fallback. -/
def useVerdict : WeaponKind → Option WeaponKind → Verdict
  | .rock, some .scissors => .critical
  | .rock, some .paper => .notEffective
  | .rock, _ => .neutral
  | .paper, some .rock => .critical
  | .paper, some .scissors => .notEffective
  | .paper, _ => .neutral
  | .scissors, some .paper => .critical
  | .scissors, some .lizard => .critical
  | .scissors, some .rock => .notEffective
  | .scissors, some .spock => .notEffective
  | .scissors, _ => .neutral
  | .lizard, some .spock => .critical
  | .lizard, some .paper => .critical
  | .lizard, some .rock => .notEffective
  | .lizard, some .scissors => .notEffective
  | .lizard, _ => .neutral
  | .spock, some .rock => .critical
  | .spock, some .scissors => .critical
  | .spock, some .lizard => .notEffective
  | .spock, some .paper => .notEffective
  | .spock, _ => .neutral

/-- Total matchup resolver over attacker/defender weapon kinds.  An absent
attacker weapon applies no modifier at all (`Character.attack` adds a bonus
of 0 and triggers no `use` message), hence resolves `neutral`. -/
def resolve : Option WeaponKind → Option WeaponKind → Verdict
  | none, _ => .neutral
  | some a, t => useVerdict a t

/-- Modelled from the spec, §4.1 fixed table, "A beats B" rows:
Rock beats Scissors; Paper beats Rock; Scissors beats Paper, Lizard;
Lizard beats Spock, Paper; Spock beats Rock, Scissors.  Pairs involving
"no weapon" are unlisted. -/
def tableBeats : Option WeaponKind → Option WeaponKind → Bool
  | some .rock, some .scissors => true
  | some .paper, some .rock => true
  | some .scissors, some .paper => true
  | some .scissors, some .lizard => true
  | some .lizard, some .spock => true
  | some .lizard, some .paper => true
  | some .spock, some .rock => true
  | some .spock, some .scissors => true
  | _, _ => false

/-- Modelled from the spec, §4.1 fixed table, "A loses to B" rows. -/
def tableLoses : Option WeaponKind → Option WeaponKind → Bool
  | some .rock, some .paper => true
  | some .paper, some .scissors => true
  | some .scissors, some .rock => true
  | some .scissors, some .spock => true
  | some .lizard, some .rock => true
  | some .lizard, some .scissors => true
  | some .spock, some .lizard => true
  | some .spock, some .paper => true
  | _, _ => false

/-! ## Characters, `rpg_game/character.py` -/

/-- State of a `Character`: `_health`, `damage`, the optional combat
`weapon`, `level` and `experience`.  (The owned `Inventory` is modelled
separately below; no claim relates a character to its inventory.) -/
structure Character where
  name : String
  health : Int
  damage : Int
  weapon : Option CombatWeapon
  level : Int
  experience : Int
deriving DecidableEq, Repr

/-- `Character.__init__`: level starts at 1 and experience at 0. -/
def mkCharacter (name : String) (health damage : Int)
    (weapon : Option CombatWeapon) : Character :=
  ⟨name, health, damage, weapon, 1, 0⟩

/-- `Character.take_damage` (character.py line 92):
`self._health = max(0, self._health - amount)`. -/
def take_damage (c : Character) (amount : Int) : Character :=
  { c with health := max 0 (c.health - amount) }

/-- `Character.set_health` (character.py lines 149-159): clamps negative
values to 0. -/
def set_health (c : Character) (new_health : Int) : Character :=
  if new_health < 0 then { c with health := 0 } else { c with health := new_health }

/-- The total damage computed by `Character.attack` (character.py line 173):
`self.damage + (self.weapon.damage_bonus if self.weapon else 0)`. -/
def attackDamage (c : Character) : Int :=
  c.damage + (match c.weapon with | some w => w.damage_bonus | none => 0)

/-- `Character.attack` (character.py lines 162-180, the later of the two
definitions, which is the one Python keeps): computes the total damage,
reads the enemy's health through `get_health`, writes it back through
`set_health`, and returns the total damage.  The result is the returned
damage, the attacker's state and the enemy's state after the call; the
method never assigns to `self`, so the attacker component is `self`
unchanged. -/
def attack (self enemy : Character) : Int × Character × Character :=
  let total_damage := attackDamage self
  let enemy1 := set_health enemy (enemy.health - total_damage)
  (total_damage, self, enemy1)

/-- `Character.level_up` (character.py lines 111-120). -/
def level_up (c : Character) (levels : Int) : Character :=
  { c with
    level := c.level + levels
    health := c.health + 10 * levels
    damage := c.damage + 2 * levels }

/-- `Character.add_experience` (character.py lines 98-109):
`self.experience += amount; levels_gained = self.experience // 100;
if levels_gained > 0: self.level_up(levels_gained)`.  Python `//` is floor
division, hence `Int.fdiv`. -/
def add_experience (c : Character) (amount : Int) : Character :=
  let c1 := { c with experience := c.experience + amount }
  let levels_gained := Int.fdiv c1.experience 100
  if 0 < levels_gained then level_up c1 levels_gained else c1

/-- `Boss.attack` (character.py lines 366-393): run the base
`Character.attack`, then, on the 20% roll (`crit` = the injected roll took
the success branch), apply the same amount again via `take_damage` and add
it to the returned total. -/
def boss_attack (crit : Bool) (self enemy : Character) :
    Int × Character × Character :=
  let r := attack self enemy
  let damage_dealt := r.1
  if crit then
    let extra_damage := damage_dealt
    let enemy2 := take_damage r.2.2 extra_damage
    (damage_dealt + extra_damage, r.2.1, enemy2)
  else r

/-- `Player("Player")` with the defaults of character.py line 202, then
equipped with a `Rock` (the C5 scenario's attacker). -/
def scenarioPlayer : Character := mkCharacter "Player" 100 10 (some Rock)

/-- `Goblin()` (character.py line 327): health 30, damage 5, no weapon. -/
def scenarioGoblin : Character := mkCharacter "Goblin" 30 5 none

/-- A fresh default player: level 1, experience 0 (C1 experiments). -/
def freshHero : Character := mkCharacter "Hero" 100 10 none

/-! ## Inventory, `rpg_game/inventory.py` -/

inductive ItemType where
  | ARMOR | WEAPON | CONSUMABLE | MISC
deriving DecidableEq, Repr

inductive ArmorType where
  | HELMET | CHESTPLATE | LEGGINGS | BOOTS | CHARM
deriving DecidableEq, Repr

inductive WeaponType where
  | BATTLE_AXE | SHORT_SWORD | BOW_AND_ARROW
deriving DecidableEq, Repr

/-- The subclass-specific fields of the `Item` dataclass hierarchy.  The
constructor tag plays the role of the Python class tag: dataclass equality
holds only between objects of the same class with equal fields, and
`isinstance` checks inspect the tag. -/
inductive ItemData where
  | base
  | armorData (armor_type : ArmorType) (defense : Int) (durability : Int)
      (equipped : Bool)
  | weaponData (weapon_type : WeaponType) (damage : Int) (durability : Int)
      (equipped : Bool) (range : Int)
  | consumableData (effect : String) (potency : Int) (duration : Int)
deriving DecidableEq, Repr

/-- The `Item` dataclass (inventory.py lines 36-48) together with its
subclass data.  `weight` is a Python float read as an exact rational;
`quantity` and `max_stack` are non-negative counts. -/
structure Item where
  name : String
  description : String
  weight : ℚ
  value : Int
  item_type : ItemType
  max_stack : Nat
  quantity : Nat
  data : ItemData
deriving DecidableEq, Repr

/-- `isinstance(i, Consumable)`. -/
def Item.isConsumableInstance (i : Item) : Bool :=
  match i.data with
  | .consumableData _ _ _ => true
  | _ => false

/-- `isinstance(i, Weapon)` (the inventory `Weapon` item class). -/
def Item.isWeaponInstance (i : Item) : Bool :=
  match i.data with
  | .weaponData _ _ _ _ _ => true
  | _ => false

/-- `i.armor_type` when `i` is an `Armor`, else `none`. -/
def Item.armorTypeOf (i : Item) : Option ArmorType :=
  match i.data with
  | .armorData t _ _ _ => some t
  | _ => none

/-- Assignment to the `is_equipped` attribute of an `Armor` or `Weapon`
item; a no-op on other items (which have no such attribute). -/
def setEquippedFlag (i : Item) (b : Bool) : Item :=
  { i with
    data :=
      match i.data with
      | .armorData t d dur _ => .armorData t d dur b
      | .weaponData wt dg dur _ r => .weaponData wt dg dur b r
      | d => d }

/-- `Inventory` state (inventory.py lines 118-128): the ordered item list,
the armor-slot map, the optional equipped weapon, and the running weight. -/
structure Inventory where
  items : List Item
  equipped_armor : ArmorType → Option Item
  equipped_weapon : Option Item
  current_weight : ℚ

def MAX_WEIGHT : ℚ := 100

def MAX_CONSUMABLES : Nat := 3

/-- `Inventory.__init__`. -/
def emptyInventory : Inventory :=
  ⟨[], fun _ => none, none, 0⟩

/-- The loop condition of the stacking branch of `add_item` (inventory.py
lines 147-150): `isinstance(existing, Consumable) and existing.name ==
item.name and existing.quantity < existing.max_stack`. -/
def canStackInto (existing item : Item) : Bool :=
  existing.isConsumableInstance && existing.name == item.name &&
    decide (existing.quantity < existing.max_stack)

/-- The stacking loop of `add_item`: find the first stackable entry and
add the incoming quantity to it (in place); `none` when no entry matches. -/
def stackFirst : List Item → Item → Option (List Item)
  | [], _ => none
  | x :: xs, it =>
    if canStackInto x it then
      some ({ x with quantity := x.quantity + it.quantity } :: xs)
    else (stackFirst xs it).map (fun l => x :: l)

/-- `len([i for i in self.items if i.item_type == ItemType.CONSUMABLE])`. -/
def consumableEntryCount (l : List Item) : Nat :=
  (l.filter (fun i => i.item_type == ItemType.CONSUMABLE)).length

/-- `Inventory.add_item` (inventory.py lines 130-162): weight check first;
then, for consumables, the stack-merge loop, then the distinct-entry cap
check; finally append and charge the weight. -/
def add_item (inv : Inventory) (item : Item) : Bool × Inventory :=
  if MAX_WEIGHT < inv.current_weight + item.weight * (item.quantity : ℚ) then
    (false, inv)
  else if item.item_type = ItemType.CONSUMABLE then
    match stackFirst inv.items item with
    | some items1 =>
        (true,
          { inv with
            items := items1
            current_weight :=
              inv.current_weight + item.weight * (item.quantity : ℚ) })
    | none =>
        if MAX_CONSUMABLES ≤ consumableEntryCount inv.items then (false, inv)
        else
          (true,
            { inv with
              items := inv.items ++ [item]
              current_weight :=
                inv.current_weight + item.weight * (item.quantity : ℚ) })
  else
    (true,
      { inv with
        items := inv.items ++ [item]
        current_weight :=
          inv.current_weight + item.weight * (item.quantity : ℚ) })

/-- The scan of `remove_item` (inventory.py lines 175-183): find the first
entry equal to `item`; if its quantity strictly exceeds the requested
amount, decrement it and report a weight delta of `item.weight * quantity`,
else drop the entry and report `item.weight * entry.quantity`. -/
def removeFirst : List Item → Item → Nat → Option (List Item × ℚ)
  | [], _, _ => none
  | x :: xs, it, q =>
    if x = it then
      if q < x.quantity then
        some ({ x with quantity := x.quantity - q } :: xs,
          it.weight * (q : ℚ))
      else some (xs, it.weight * (x.quantity : ℚ))
    else (removeFirst xs it q).map (fun r => (x :: r.1, r.2))

/-- `Inventory.remove_item` (inventory.py lines 164-184). -/
def remove_item (inv : Inventory) (item : Item) (quantity : Nat) :
    Bool × Inventory :=
  match removeFirst inv.items item quantity with
  | some (items1, delta) =>
      (true,
        { inv with
          items := items1
          current_weight := inv.current_weight - delta })
  | none => (false, inv)

/-- Pointwise update of the armor-slot map (`self.equipped_armor[t] = v`). -/
def updateSlot (f : ArmorType → Option Item) (t : ArmorType)
    (v : Option Item) : ArmorType → Option Item :=
  fun s => if s = t then v else f s

/-- In-place mutation of a referenced object that may sit in the item list:
replace the first entry equal to the object's old value by its new value. -/
def replaceFirst : List Item → Item → Item → List Item
  | [], _, _ => []
  | x :: xs, a, b => if x = a then b :: xs else x :: replaceFirst xs a b

/-- `Inventory.unequip_armor` (inventory.py lines 207-222): fail on an
empty slot; otherwise clear the occupant's `is_equipped` flag (an in-place
mutation, visible in the item list when the occupant is still there) and
empty the slot. -/
def unequip_armor (inv : Inventory) (armor_type : ArmorType) :
    Bool × Inventory :=
  match inv.equipped_armor armor_type with
  | none => (false, inv)
  | some b =>
      (true,
        { inv with
          items := replaceFirst inv.items b (setEquippedFlag b false)
          equipped_armor := updateSlot inv.equipped_armor armor_type none })

/-- `Inventory.equip_armor` (inventory.py lines 186-205): fail if the armor
is not in the collection; auto-unequip the current occupant of its slot;
set the armor's `is_equipped` flag (if the armor itself was the occupant
just unequipped, its flag was just cleared) and install it in the slot.
The parameter is annotated `Armor` in the source, so the `none` arm of
`armorTypeOf` is unreachable from typed callers. -/
def equip_armor (inv : Inventory) (armor : Item) : Bool × Inventory :=
  match armor.armorTypeOf with
  | none => (false, inv)
  | some t =>
    if armor ∈ inv.items then
      let inv1 :=
        if (inv.equipped_armor t).isSome then (unequip_armor inv t).2 else inv
      let armor1 :=
        if inv.equipped_armor t = some armor then setEquippedFlag armor false
        else armor
      let armor2 := setEquippedFlag armor1 true
      (true,
        { inv1 with
          items := replaceFirst inv1.items armor1 armor2
          equipped_armor := updateSlot inv1.equipped_armor t (some armor2) })
    else (false, inv)

/-- `Inventory.unequip_weapon` (inventory.py lines 245-257). -/
def unequip_weapon (inv : Inventory) : Bool × Inventory :=
  match inv.equipped_weapon with
  | none => (false, inv)
  | some b =>
      (true,
        { inv with
          items := replaceFirst inv.items b (setEquippedFlag b false)
          equipped_weapon := none })

/-- `Inventory.equip_weapon` (inventory.py lines 224-243): same shape as
`equip_armor` for the single weapon slot.  The parameter is annotated
`Weapon` in the source. -/
def equip_weapon (inv : Inventory) (weapon : Item) : Bool × Inventory :=
  if weapon ∈ inv.items then
    let inv1 := if inv.equipped_weapon.isSome then (unequip_weapon inv).2 else inv
    let weapon1 :=
      if inv.equipped_weapon = some weapon then setEquippedFlag weapon false
      else weapon
    let weapon2 := setEquippedFlag weapon1 true
    (true,
      { inv1 with
        items := replaceFirst inv1.items weapon1 weapon2
        equipped_weapon := some weapon2 })
  else (false, inv)

/-- `Inventory.use_consumable` (inventory.py lines 259-277): membership
check, effect application (console output only, out of scope), then
`remove_item(consumable, 1)`.  The parameter is annotated `Consumable`. -/
def use_consumable (inv : Inventory) (consumable : Item) : Bool × Inventory :=
  if consumable ∈ inv.items then remove_item inv consumable 1
  else (false, inv)

/-- `Inventory.get_total_weight` (inventory.py line 310):
`sum(item.weight * item.quantity for item in self.items)`. -/
def sumWeights (l : List Item) : ℚ :=
  (l.map (fun i => i.weight * (i.quantity : ℚ))).sum

/-! Named pieces of the successful `equip_armor` / `equip_weapon` branches,
definitionally equal to the let-bound intermediate states of the
definitions above; only used to state computation lemmas. -/

/-- The inventory after the auto-unequip step of `equip_armor`. -/
def armorAutoUnequipped (inv : Inventory) (t : ArmorType) : Inventory :=
  if (inv.equipped_armor t).isSome then (unequip_armor inv t).2 else inv

/-- The current value of the armor object passed to `equip_armor` after the
auto-unequip step (its flag was just cleared when it was the occupant). -/
def armorPassed (inv : Inventory) (t : ArmorType) (armor : Item) : Item :=
  if inv.equipped_armor t = some armor then setEquippedFlag armor false
  else armor

/-- The final state of a successful `equip_armor`. -/
def equipArmorResult (inv : Inventory) (t : ArmorType) (armor : Item) :
    Inventory :=
  { armorAutoUnequipped inv t with
    items :=
      replaceFirst (armorAutoUnequipped inv t).items (armorPassed inv t armor)
        (setEquippedFlag (armorPassed inv t armor) true)
    equipped_armor :=
      updateSlot (armorAutoUnequipped inv t).equipped_armor t
        (some (setEquippedFlag (armorPassed inv t armor) true)) }

/-- The inventory after the auto-unequip step of `equip_weapon`. -/
def weaponAutoUnequipped (inv : Inventory) : Inventory :=
  if inv.equipped_weapon.isSome then (unequip_weapon inv).2 else inv

/-- The current value of the weapon object passed to `equip_weapon` after
the auto-unequip step. -/
def weaponPassed (inv : Inventory) (weapon : Item) : Item :=
  if inv.equipped_weapon = some weapon then setEquippedFlag weapon false
  else weapon

/-- The final state of a successful `equip_weapon`. -/
def equipWeaponResult (inv : Inventory) (weapon : Item) : Inventory :=
  { weaponAutoUnequipped inv with
    items :=
      replaceFirst (weaponAutoUnequipped inv).items (weaponPassed inv weapon)
        (setEquippedFlag (weaponPassed inv weapon) true)
    equipped_weapon := some (setEquippedFlag (weaponPassed inv weapon) true) }

/-! ## Invariants and reachability -/

/-- The weight invariant of the spec (§3), strengthened with the fact that
every held item's weight agrees with a fixed per-name weight assignment
`W` and is non-negative. -/
def WeightInvariant (W : String → ℚ) (inv : Inventory) : Prop :=
  (∀ i ∈ inv.items, i.weight = W i.name ∧ 0 ≤ i.weight) ∧
  inv.current_weight = sumWeights inv.items ∧
  inv.current_weight ≤ MAX_WEIGHT

/-- Inventories reachable from a fresh one by `add_item` / `remove_item`
where every added item draws its (non-negative) weight from the fixed
per-name assignment `W`; removals are unrestricted. -/
inductive ReachAR : (String → ℚ) → Inventory → Prop where
  | empty (W) : ReachAR W emptyInventory
  | add {W inv} (item : Item) (h : ReachAR W inv)
      (hW : item.weight = W item.name) (hpos : 0 ≤ item.weight) :
      ReachAR W (add_item inv item).2
  | remove {W inv} (item : Item) (q : Nat) (h : ReachAR W inv) :
      ReachAR W (remove_item inv item q).2

/-- The stack-bound invariant of the spec (§3): every held stack's
quantity lies between 1 and its max-stack bound. -/
def QtyInvariant (inv : Inventory) : Prop :=
  ∀ i ∈ inv.items, 1 ≤ i.quantity ∧ i.quantity ≤ i.max_stack

/-- Inventories reachable from a fresh one by the public operations, where
every added item enters one unit at a time (`quantity = 1`) with a positive
max-stack bound; all other operations are unrestricted. -/
inductive ReachQ : Inventory → Prop where
  | empty : ReachQ emptyInventory
  | add {inv} (item : Item) (h : ReachQ inv)
      (hq : item.quantity = 1) (hs : 1 ≤ item.max_stack) :
      ReachQ (add_item inv item).2
  | remove {inv} (item : Item) (q : Nat) (h : ReachQ inv) :
      ReachQ (remove_item inv item q).2
  | equipArmorStep {inv} (armor : Item) (h : ReachQ inv) :
      ReachQ (equip_armor inv armor).2
  | unequipArmorStep {inv} (t : ArmorType) (h : ReachQ inv) :
      ReachQ (unequip_armor inv t).2
  | equipWeaponStep {inv} (w : Item) (h : ReachQ inv) :
      ReachQ (equip_weapon inv w).2
  | unequipWeaponStep {inv} (h : ReachQ inv) :
      ReachQ (unequip_weapon inv).2
  | useConsumableStep {inv} (c : Item) (h : ReachQ inv) :
      ReachQ (use_consumable inv c).2

/-- The equip-slot invariant of the spec (§3), strengthened with the slot
discipline the operations maintain: an armor slot holds an armor of that
very slot kind, the weapon slot holds a weapon item. -/
def SlotsWellFormed (inv : Inventory) : Prop :=
  (∀ t a, inv.equipped_armor t = some a →
    a ∈ inv.items ∧ a.armorTypeOf = some t) ∧
  (∀ w, inv.equipped_weapon = some w →
    w ∈ inv.items ∧ w.isWeaponInstance = true)

/-- Inventories reachable from a fresh one by the public operations, where
`remove_item` is never applied to a currently equipped item (the spec's
"caller must unequip first" contract) and the arguments of `equip_weapon`
and `use_consumable` respect the source's type annotations (`Weapon`,
`Consumable`). -/
inductive ReachE : Inventory → Prop where
  | empty : ReachE emptyInventory
  | add {inv} (item : Item) (h : ReachE inv) : ReachE (add_item inv item).2
  | remove {inv} (item : Item) (q : Nat) (h : ReachE inv)
      (hA : ∀ t, inv.equipped_armor t ≠ some item)
      (hW : inv.equipped_weapon ≠ some item) :
      ReachE (remove_item inv item q).2
  | equipArmorStep {inv} (armor : Item) (h : ReachE inv) :
      ReachE (equip_armor inv armor).2
  | unequipArmorStep {inv} (t : ArmorType) (h : ReachE inv) :
      ReachE (unequip_armor inv t).2
  | equipWeaponStep {inv} (w : Item) (hw : w.isWeaponInstance = true)
      (h : ReachE inv) : ReachE (equip_weapon inv w).2
  | unequipWeaponStep {inv} (h : ReachE inv) : ReachE (unequip_weapon inv).2
  | useConsumableStep {inv} (c : Item) (hc : c.isConsumableInstance = true)
      (h : ReachE inv) : ReachE (use_consumable inv c).2

/-! ## Concrete items for scenarios -/

/-- A one-unit consumable of weight 1 (constructible as
`Consumable(name="p", description="", weight=1.0, value=0, effect="heal",
potency=1)`). -/
def potionA : Item :=
  ⟨"p", "", 1, 0, .CONSUMABLE, 5, 1, .consumableData "heal" 1 0⟩

/-- The same consumable sold at a different per-unit weight. -/
def potionB : Item := { potionA with weight := 2 }

/-- Plain items (class `Item`, type MISC) for the weight-cap scenario. -/
def heavyCrate : Item := ⟨"crate", "", 100, 0, .MISC, 1, 1, .base⟩

def negFeather : Item := ⟨"feather", "", -5, 0, .MISC, 1, 1, .base⟩

def smallRock : Item := ⟨"pebble", "", 5, 0, .MISC, 1, 1, .base⟩

/-- A consumable stack of four units (max stack 5), weightless so only the
stacking logic is in play. -/
def potionFour : Item :=
  ⟨"q", "", 0, 0, .CONSUMABLE, 5, 4, .consumableData "heal" 1 0⟩

/-- Three more units of the same consumable. -/
def potionThree : Item := { potionFour with quantity := 3 }

/-- A single-unit consumable for witnesses. -/
def potionUnit : Item :=
  ⟨"u", "", 1, 0, .CONSUMABLE, 5, 1, .consumableData "heal" 1 0⟩

/-- A leather-helmet-like armor item. -/
def helmetItem : Item :=
  ⟨"h", "", 1, 0, .ARMOR, 1, 1, .armorData .HELMET 2 100 false⟩

/-- The inventory after adding `helmetItem` and equipping it. -/
def equippedHelmetInv : Inventory :=
  (equip_armor (add_item emptyInventory helmetItem).2 helmetItem).2

/-- The inventory after additionally removing the (still equipped) helmet;
the caller's reference to the helmet now carries a raised equipped flag. -/
def removedHelmetInv : Inventory :=
  (remove_item equippedHelmetInv (setEquippedFlag helmetItem true) 1).2

/-- Three consumables of pairwise distinct names. -/
def potA : Item := ⟨"a", "", 1, 0, .CONSUMABLE, 5, 1, .consumableData "x" 1 0⟩

def potB : Item := ⟨"b", "", 1, 0, .CONSUMABLE, 5, 1, .consumableData "x" 1 0⟩

def potC : Item := ⟨"c", "", 1, 0, .CONSUMABLE, 5, 1, .consumableData "x" 1 0⟩

/-- A consumable of a fourth distinct name. -/
def potD : Item := ⟨"d", "", 1, 0, .CONSUMABLE, 5, 1, .consumableData "x" 1 0⟩

/-- An inventory already holding the three distinct consumable types. -/
def threeTypesInv : Inventory := ⟨[potA, potB, potC], fun _ => none, none, 3⟩

/-- Attacker and targets for the overkill scenarios: a damage-10 attacker,
a 3-health target and an already-downed target. -/
def tenAttacker : Character := mkCharacter "P" 7 10 none

def threeHealthTarget : Character := mkCharacter "G" 3 5 none

def zeroHealthTarget : Character := mkCharacter "Z" 0 5 none

/-- A boss whose base attack deals 50 (C9 scenario), and a target. -/
def bossFifty : Character := mkCharacter "Boss" 500 50 none

def bossTarget : Character := mkCharacter "Orc" 60 8 none

/-! ## Helper lemmas about the item-list operations -/

theorem canStackInto_spec {x it : Item} (h : canStackInto x it = true) :
    x.isConsumableInstance = true ∧ x.name = it.name ∧
      x.quantity < x.max_stack := by
  simp only [canStackInto, Bool.and_eq_true, beq_iff_eq,
    decide_eq_true_eq] at h
  exact ⟨h.1.1, h.1.2, h.2⟩

theorem canStackInto_eq_false_of_name {x it : Item}
    (h : x.isConsumableInstance = true → x.name ≠ it.name) :
    canStackInto x it = false := by
  cases hcons : x.isConsumableInstance with
  | false => simp [canStackInto, hcons]
  | true => simp [canStackInto, hcons, h hcons]

theorem canStackInto_eq_false_of_not_consumable {x it : Item}
    (h : x.isConsumableInstance = false) : canStackInto x it = false := by
  simp [canStackInto, h]

theorem replaceFirst_of_not_mem {a : Item} (b : Item) :
    ∀ {l : List Item}, a ∉ l → replaceFirst l a b = l := by
  intro l
  induction l with
  | nil => intro _; rfl
  | cons x xs ih =>
    intro h
    simp only [List.mem_cons, not_or] at h
    simp only [replaceFirst]
    rw [if_neg fun hx => h.1 hx.symm, ih h.2]

theorem mem_replaceFirst_self {a : Item} (b : Item) :
    ∀ {l : List Item}, a ∈ l → b ∈ replaceFirst l a b := by
  intro l
  induction l with
  | nil => intro h; exact absurd h (List.not_mem_nil a)
  | cons x xs ih =>
    intro h
    simp only [replaceFirst]
    by_cases hx : x = a
    · rw [if_pos hx]
      exact List.mem_cons_self b _
    · rw [if_neg hx]
      rcases List.mem_cons.mp h with h1 | h2
      · exact absurd h1.symm hx
      · exact List.mem_cons_of_mem x (ih h2)

theorem mem_replaceFirst_of_ne {a b c : Item} :
    ∀ {l : List Item}, c ∈ l → c ≠ a → c ∈ replaceFirst l a b := by
  intro l
  induction l with
  | nil => intro h _; exact absurd h (List.not_mem_nil c)
  | cons x xs ih =>
    intro h hne
    simp only [replaceFirst]
    by_cases hx : x = a
    · rw [if_pos hx]
      rcases List.mem_cons.mp h with h1 | h2
      · exact absurd (h1.trans hx) hne
      · exact List.mem_cons_of_mem b h2
    · rw [if_neg hx]
      rcases List.mem_cons.mp h with h1 | h2
      · rw [h1]
        exact List.mem_cons_self x _
      · exact List.mem_cons_of_mem x (ih h2 hne)

theorem mem_replaceFirst_cases {a b i : Item} :
    ∀ {l : List Item}, i ∈ replaceFirst l a b → i ∈ l ∨ (a ∈ l ∧ i = b) := by
  intro l
  induction l with
  | nil => intro h; exact absurd h (List.not_mem_nil i)
  | cons x xs ih =>
    intro h
    simp only [replaceFirst] at h
    by_cases hx : x = a
    · rw [if_pos hx] at h
      rcases List.mem_cons.mp h with h1 | h2
      · exact Or.inr ⟨by rw [← hx]; exact List.mem_cons_self x xs, h1⟩
      · exact Or.inl (List.mem_cons_of_mem x h2)
    · rw [if_neg hx] at h
      rcases List.mem_cons.mp h with h1 | h2
      · rw [h1]
        exact Or.inl (List.mem_cons_self x xs)
      · rcases ih h2 with h3 | ⟨h4, h5⟩
        · exact Or.inl (List.mem_cons_of_mem x h3)
        · exact Or.inr ⟨List.mem_cons_of_mem x h4, h5⟩

theorem sumWeights_nil : sumWeights [] = 0 := rfl

theorem sumWeights_cons (x : Item) (l : List Item) :
    sumWeights (x :: l) = x.weight * (x.quantity : ℚ) + sumWeights l := by
  simp [sumWeights]

theorem sumWeights_append (l₁ l₂ : List Item) :
    sumWeights (l₁ ++ l₂) = sumWeights l₁ + sumWeights l₂ := by
  simp [sumWeights]

theorem stackFirst_eq_some {it : Item} :
    ∀ {l l' : List Item}, stackFirst l it = some l' →
      ∃ l₁ x l₂, l = l₁ ++ x :: l₂ ∧ canStackInto x it = true ∧
        l' = l₁ ++ { x with quantity := x.quantity + it.quantity } :: l₂ := by
  intro l
  induction l with
  | nil => intro l' h; exact absurd h (by simp [stackFirst])
  | cons x xs ih =>
    intro l' h
    simp only [stackFirst] at h
    by_cases hc : canStackInto x it
    · rw [if_pos hc] at h
      exact ⟨[], x, xs, rfl, hc, (Option.some.inj h).symm⟩
    · rw [if_neg hc] at h
      cases hm : stackFirst xs it with
      | none => rw [hm] at h; simp at h
      | some l2 =>
        rw [hm] at h
        simp only [Option.map_some', Option.some.injEq] at h
        obtain ⟨l₁, y, l₂, hl, hcy, hl2⟩ := ih hm
        refine ⟨x :: l₁, y, l₂, by rw [hl]; rfl, hcy, ?_⟩
        rw [← h, hl2]
        rfl

theorem stackFirst_eq_none {it : Item} :
    ∀ {l : List Item}, (∀ i ∈ l, canStackInto i it = false) →
      stackFirst l it = none := by
  intro l
  induction l with
  | nil => intro _; rfl
  | cons x xs ih =>
    intro h
    simp only [stackFirst]
    rw [if_neg (by simp [h x (List.mem_cons_self x xs)]),
      ih fun i hi => h i (List.mem_cons_of_mem x hi)]
    rfl

theorem removeFirst_eq_some {it : Item} {q : Nat} :
    ∀ {l l' : List Item} {d : ℚ}, removeFirst l it q = some (l', d) →
      ∃ l₁ x l₂, l = l₁ ++ x :: l₂ ∧ x = it ∧
        ((q < x.quantity ∧
            l' = l₁ ++ { x with quantity := x.quantity - q } :: l₂ ∧
            d = it.weight * (q : ℚ)) ∨
          (x.quantity ≤ q ∧ l' = l₁ ++ l₂ ∧
            d = it.weight * (x.quantity : ℚ))) := by
  intro l
  induction l with
  | nil => intro l' d h; exact absurd h (by simp [removeFirst])
  | cons x xs ih =>
    intro l' d h
    simp only [removeFirst] at h
    by_cases hx : x = it
    · rw [if_pos hx] at h
      by_cases hq : q < x.quantity
      · rw [if_pos hq] at h
        simp only [Option.some.injEq, Prod.mk.injEq] at h
        exact ⟨[], x, xs, rfl, hx, Or.inl ⟨hq, h.1.symm, h.2.symm⟩⟩
      · rw [if_neg hq] at h
        simp only [Option.some.injEq, Prod.mk.injEq] at h
        exact ⟨[], x, xs, rfl, hx, Or.inr ⟨not_lt.mp hq, h.1.symm, h.2.symm⟩⟩
    · rw [if_neg hx] at h
      cases hm : removeFirst xs it q with
      | none => rw [hm] at h; simp at h
      | some r =>
        rw [hm] at h
        obtain ⟨l2, d2⟩ := r
        simp only [Option.map_some', Option.some.injEq, Prod.mk.injEq] at h
        obtain ⟨l₁, y, l₂, hl, hy, hcase⟩ := ih hm
        refine ⟨x :: l₁, y, l₂, by rw [hl]; rfl, hy, ?_⟩
        rcases hcase with ⟨hq1, hl1, hd1⟩ | ⟨hq1, hl1, hd1⟩
        · refine Or.inl ⟨hq1, ?_, ?_⟩
          · rw [← h.1, hl1]; rfl
          · rw [← h.2, hd1]
        · refine Or.inr ⟨hq1, ?_, ?_⟩
          · rw [← h.1, hl1]; rfl
          · rw [← h.2, hd1]

theorem mem_stackFirst_of_no_stack {it a : Item} {l l' : List Item}
    (h : stackFirst l it = some l') (ha : a ∈ l)
    (hno : canStackInto a it = false) : a ∈ l' := by
  obtain ⟨l₁, x, l₂, hl, hcs, hl2⟩ := stackFirst_eq_some h
  subst hl
  subst hl2
  rcases List.mem_append.mp ha with h1 | h2
  · exact List.mem_append_left _ h1
  · rcases List.mem_cons.mp h2 with h3 | h4
    · rw [h3, hcs] at hno
      exact Bool.noConfusion hno
    · exact List.mem_append_right _ (List.mem_cons_of_mem _ h4)

theorem mem_removeFirst_of_ne {it a : Item} {q : Nat} {l l' : List Item}
    {d : ℚ} (h : removeFirst l it q = some (l', d)) (ha : a ∈ l)
    (hne : a ≠ it) : a ∈ l' := by
  obtain ⟨l₁, x, l₂, hl, hx, hcase⟩ := removeFirst_eq_some h
  subst hl
  subst hx
  rcases List.mem_append.mp ha with h1 | h2
  · rcases hcase with ⟨_, hl1, _⟩ | ⟨_, hl1, _⟩ <;> rw [hl1] <;>
      exact List.mem_append_left _ h1
  · rcases List.mem_cons.mp h2 with h3 | h4
    · exact absurd h3 hne
    · rcases hcase with ⟨_, hl1, _⟩ | ⟨_, hl1, _⟩ <;> rw [hl1]
      · exact List.mem_append_right _ (List.mem_cons_of_mem _ h4)
      · exact List.mem_append_right _ h4

/-! ## Computation lemmas for the equip operations -/

theorem setEquippedFlag_quantity (i : Item) (b : Bool) :
    (setEquippedFlag i b).quantity = i.quantity := rfl

theorem setEquippedFlag_max_stack (i : Item) (b : Bool) :
    (setEquippedFlag i b).max_stack = i.max_stack := rfl

theorem setEquippedFlag_name (i : Item) (b : Bool) :
    (setEquippedFlag i b).name = i.name := rfl

theorem setEquippedFlag_armorTypeOf (i : Item) (b : Bool) :
    (setEquippedFlag i b).armorTypeOf = i.armorTypeOf := by
  cases hd : i.data <;> simp [setEquippedFlag, Item.armorTypeOf, hd]

theorem setEquippedFlag_isWeaponInstance (i : Item) (b : Bool) :
    (setEquippedFlag i b).isWeaponInstance = i.isWeaponInstance := by
  cases hd : i.data <;> simp [setEquippedFlag, Item.isWeaponInstance, hd]

theorem setEquippedFlag_isConsumableInstance (i : Item) (b : Bool) :
    (setEquippedFlag i b).isConsumableInstance = i.isConsumableInstance := by
  cases hd : i.data <;> simp [setEquippedFlag, Item.isConsumableInstance, hd]

theorem unequip_armor_eq_some {inv : Inventory} {t : ArmorType} {b : Item}
    (h : inv.equipped_armor t = some b) :
    unequip_armor inv t =
      (true,
        { inv with
          items := replaceFirst inv.items b (setEquippedFlag b false)
          equipped_armor := updateSlot inv.equipped_armor t none }) := by
  unfold unequip_armor
  rw [h]

theorem unequip_armor_eq_none {inv : Inventory} {t : ArmorType}
    (h : inv.equipped_armor t = none) : unequip_armor inv t = (false, inv) := by
  unfold unequip_armor
  rw [h]

theorem unequip_weapon_eq_some {inv : Inventory} {b : Item}
    (h : inv.equipped_weapon = some b) :
    unequip_weapon inv =
      (true,
        { inv with
          items := replaceFirst inv.items b (setEquippedFlag b false)
          equipped_weapon := none }) := by
  unfold unequip_weapon
  rw [h]

theorem unequip_weapon_eq_none {inv : Inventory}
    (h : inv.equipped_weapon = none) : unequip_weapon inv = (false, inv) := by
  unfold unequip_weapon
  rw [h]

theorem equip_armor_eq_none {inv : Inventory} {armor : Item}
    (h : armor.armorTypeOf = none) : equip_armor inv armor = (false, inv) := by
  unfold equip_armor
  rw [h]

theorem equip_armor_eq_not_mem {inv : Inventory} {armor : Item}
    {t : ArmorType} (h : armor.armorTypeOf = some t)
    (hmem : armor ∉ inv.items) : equip_armor inv armor = (false, inv) := by
  unfold equip_armor
  rw [h]
  exact if_neg hmem

theorem equip_armor_eq_mem {inv : Inventory} {armor : Item} {t : ArmorType}
    (h : armor.armorTypeOf = some t) (hmem : armor ∈ inv.items) :
    equip_armor inv armor = (true, equipArmorResult inv t armor) := by
  unfold equip_armor equipArmorResult armorAutoUnequipped armorPassed
  rw [h]
  exact if_pos hmem

theorem equip_weapon_eq_not_mem {inv : Inventory} {weapon : Item}
    (hmem : weapon ∉ inv.items) : equip_weapon inv weapon = (false, inv) := by
  unfold equip_weapon
  exact if_neg hmem

theorem equip_weapon_eq_mem {inv : Inventory} {weapon : Item}
    (hmem : weapon ∈ inv.items) :
    equip_weapon inv weapon = (true, equipWeaponResult inv weapon) := by
  unfold equip_weapon equipWeaponResult weaponAutoUnequipped weaponPassed
  exact if_pos hmem

theorem use_consumable_eq_not_mem {inv : Inventory} {c : Item}
    (hmem : c ∉ inv.items) : use_consumable inv c = (false, inv) := by
  unfold use_consumable
  exact if_neg hmem

theorem use_consumable_eq_mem {inv : Inventory} {c : Item}
    (hmem : c ∈ inv.items) : use_consumable inv c = remove_item inv c 1 := by
  unfold use_consumable
  exact if_pos hmem

/-! ## Preservation of the weight invariant (C2) -/

theorem weightInvariant_empty (W : String → ℚ) :
    WeightInvariant W emptyInventory := by
  refine ⟨fun i hi => absurd hi (List.not_mem_nil i), rfl, ?_⟩
  show (0 : ℚ) ≤ 100
  norm_num

theorem weightInvariant_add {W : String → ℚ} {inv : Inventory} {item : Item}
    (hW : item.weight = W item.name) (hpos : 0 ≤ item.weight)
    (h : WeightInvariant W inv) : WeightInvariant W (add_item inv item).2 := by
  obtain ⟨hitems, hsum, hcap⟩ := h
  have happend :
      WeightInvariant W
        { inv with
          items := inv.items ++ [item]
          current_weight :=
            inv.current_weight + item.weight * (item.quantity : ℚ) } ∨
      MAX_WEIGHT < inv.current_weight + item.weight * (item.quantity : ℚ) := by
    by_cases hw :
        MAX_WEIGHT < inv.current_weight + item.weight * (item.quantity : ℚ)
    · exact Or.inr hw
    · refine Or.inl ⟨?_, ?_, not_lt.mp hw⟩
      · intro i hi
        rcases List.mem_append.mp hi with h1 | h2
        · exact hitems i h1
        · rw [List.mem_singleton.mp h2]
          exact ⟨hW, hpos⟩
      · show inv.current_weight + item.weight * (item.quantity : ℚ) =
          sumWeights (inv.items ++ [item])
        rw [sumWeights_append, sumWeights_cons, sumWeights_nil, hsum]
        ring
  unfold add_item
  by_cases hw :
      MAX_WEIGHT < inv.current_weight + item.weight * (item.quantity : ℚ)
  · rw [if_pos hw]
    exact ⟨hitems, hsum, hcap⟩
  · rw [if_neg hw]
    have hle :
        inv.current_weight + item.weight * (item.quantity : ℚ) ≤ MAX_WEIGHT :=
      not_lt.mp hw
    by_cases hc : item.item_type = ItemType.CONSUMABLE
    · rw [if_pos hc]
      cases hst : stackFirst inv.items item with
      | none =>
        by_cases hcap3 : MAX_CONSUMABLES ≤ consumableEntryCount inv.items
        · rw [if_pos hcap3]
          exact ⟨hitems, hsum, hcap⟩
        · rw [if_neg hcap3]
          exact happend.resolve_right hw
      | some items1 =>
        obtain ⟨l₁, x, l₂, hl, hcs, hl2⟩ := stackFirst_eq_some hst
        obtain ⟨hxc, hxname, hxlt⟩ := canStackInto_spec hcs
        have hx_mem : x ∈ inv.items := by
          rw [hl]
          exact List.mem_append_right _ (List.mem_cons_self x l₂)
        have hxw : x.weight = item.weight := by
          rw [(hitems x hx_mem).1, hxname, ← hW]
        refine ⟨?_, ?_, hle⟩
        · intro i hi
          rw [hl2] at hi
          rcases List.mem_append.mp hi with h1 | h2
          · exact hitems i (by rw [hl]; exact List.mem_append_left _ h1)
          · rcases List.mem_cons.mp h2 with h3 | h4
            · rw [h3]
              exact hitems x hx_mem
            · exact hitems i
                (by rw [hl];
                    exact List.mem_append_right _ (List.mem_cons_of_mem x h4))
        · show inv.current_weight + item.weight * (item.quantity : ℚ) =
            sumWeights items1
          rw [hl, sumWeights_append, sumWeights_cons] at hsum
          rw [hl2, sumWeights_append, sumWeights_cons]
          simp only [hsum, hxw]
          push_cast
          ring
    · rw [if_neg hc]
      exact happend.resolve_right hw

theorem weightInvariant_remove {W : String → ℚ} {inv : Inventory}
    {item : Item} {q : Nat} (h : WeightInvariant W inv) :
    WeightInvariant W (remove_item inv item q).2 := by
  obtain ⟨hitems, hsum, hcap⟩ := h
  unfold remove_item
  cases hrem : removeFirst inv.items item q with
  | none => exact ⟨hitems, hsum, hcap⟩
  | some r =>
    obtain ⟨items1, delta⟩ := r
    obtain ⟨l₁, x, l₂, hl, hx, hcase⟩ := removeFirst_eq_some hrem
    subst hx
    have hx_mem : x ∈ inv.items := by
      rw [hl]
      exact List.mem_append_right _ (List.mem_cons_self x l₂)
    have hxw := hitems x hx_mem
    have hdelta : 0 ≤ delta := by
      rcases hcase with ⟨hq1, hl1, hd1⟩ | ⟨hq1, hl1, hd1⟩ <;> rw [hd1] <;>
        exact mul_nonneg hxw.2 (by positivity)
    refine ⟨?_, ?_, ?_⟩
    · intro i hi
      rcases hcase with ⟨hq1, hl1, hd1⟩ | ⟨hq1, hl1, hd1⟩
      · rw [hl1] at hi
        rcases List.mem_append.mp hi with h1 | h2
        · exact hitems i (by rw [hl]; exact List.mem_append_left _ h1)
        · rcases List.mem_cons.mp h2 with h3 | h4
          · rw [h3]
            exact hxw
          · exact hitems i
              (by rw [hl];
                  exact List.mem_append_right _ (List.mem_cons_of_mem x h4))
      · rw [hl1] at hi
        rcases List.mem_append.mp hi with h1 | h2
        · exact hitems i (by rw [hl]; exact List.mem_append_left _ h1)
        · exact hitems i
            (by rw [hl];
                exact List.mem_append_right _ (List.mem_cons_of_mem x h2))
    · show inv.current_weight - delta = sumWeights items1
      rw [hl, sumWeights_append, sumWeights_cons] at hsum
      rcases hcase with ⟨hq1, hl1, hd1⟩ | ⟨hq1, hl1, hd1⟩
      · rw [hl1, hd1, sumWeights_append, sumWeights_cons]
        simp only [hsum]
        rw [Nat.cast_sub hq1.le]
        ring
      · rw [hl1, hd1, sumWeights_append]
        simp only [hsum]
        ring
    · show inv.current_weight - delta ≤ MAX_WEIGHT
      linarith

theorem reachAR_weightInvariant {W : String → ℚ} {inv : Inventory}
    (h : ReachAR W inv) : WeightInvariant W inv := by
  induction h with
  | empty => exact weightInvariant_empty W
  | add item h hW hpos ih => exact weightInvariant_add hW hpos ih
  | remove item q h ih => exact weightInvariant_remove ih

/-! ## Preservation of the stack-bound invariant (C3) -/

theorem qtyInvariant_empty : QtyInvariant emptyInventory :=
  fun i hi => absurd hi (List.not_mem_nil i)

theorem qtyInvariant_add {inv : Inventory} {item : Item}
    (hq : item.quantity = 1) (hs : 1 ≤ item.max_stack) (h : QtyInvariant inv) :
    QtyInvariant (add_item inv item).2 := by
  unfold add_item
  have happ : ∀ i ∈ inv.items ++ [item],
      1 ≤ i.quantity ∧ i.quantity ≤ i.max_stack := by
    intro i hi
    rcases List.mem_append.mp hi with h1 | h2
    · exact h i h1
    · rw [List.mem_singleton.mp h2]
      omega
  by_cases hw :
      MAX_WEIGHT < inv.current_weight + item.weight * (item.quantity : ℚ)
  · rw [if_pos hw]
    exact h
  · rw [if_neg hw]
    by_cases hc : item.item_type = ItemType.CONSUMABLE
    · rw [if_pos hc]
      cases hst : stackFirst inv.items item with
      | none =>
        by_cases hcap3 : MAX_CONSUMABLES ≤ consumableEntryCount inv.items
        · rw [if_pos hcap3]
          exact h
        · rw [if_neg hcap3]
          exact happ
      | some items1 =>
        obtain ⟨l₁, x, l₂, hl, hcs, hl2⟩ := stackFirst_eq_some hst
        obtain ⟨hxc, hxname, hxlt⟩ := canStackInto_spec hcs
        have hx_mem : x ∈ inv.items := by
          rw [hl]
          exact List.mem_append_right _ (List.mem_cons_self x l₂)
        intro i hi
        have hi1 : i ∈ items1 := hi
        rw [hl2] at hi1
        rcases List.mem_append.mp hi1 with h1 | h2
        · exact h i (by rw [hl]; exact List.mem_append_left _ h1)
        · rcases List.mem_cons.mp h2 with h3 | h4
          · have hx := h x hx_mem
            rw [h3]
            show 1 ≤ x.quantity + item.quantity ∧
              x.quantity + item.quantity ≤ x.max_stack
            omega
          · exact h i
              (by rw [hl];
                  exact List.mem_append_right _ (List.mem_cons_of_mem x h4))
    · rw [if_neg hc]
      exact happ

theorem qtyInvariant_remove {inv : Inventory} {item : Item} {q : Nat}
    (h : QtyInvariant inv) : QtyInvariant (remove_item inv item q).2 := by
  unfold remove_item
  cases hrem : removeFirst inv.items item q with
  | none => exact h
  | some r =>
    obtain ⟨items1, delta⟩ := r
    obtain ⟨l₁, x, l₂, hl, hx, hcase⟩ := removeFirst_eq_some hrem
    have hx_mem : x ∈ inv.items := by
      rw [hl]
      exact List.mem_append_right _ (List.mem_cons_self x l₂)
    have hxb := h x hx_mem
    intro i hi
    have hi1 : i ∈ items1 := hi
    rcases hcase with ⟨hq1, hl1, _⟩ | ⟨hq1, hl1, _⟩
    · rw [hl1] at hi1
      rcases List.mem_append.mp hi1 with h1 | h2
      · exact h i (by rw [hl]; exact List.mem_append_left _ h1)
      · rcases List.mem_cons.mp h2 with h3 | h4
        · rw [h3]
          show 1 ≤ x.quantity - q ∧ x.quantity - q ≤ x.max_stack
          omega
        · exact h i
            (by rw [hl];
                exact List.mem_append_right _ (List.mem_cons_of_mem x h4))
    · rw [hl1] at hi1
      rcases List.mem_append.mp hi1 with h1 | h2
      · exact h i (by rw [hl]; exact List.mem_append_left _ h1)
      · exact h i
          (by rw [hl];
              exact List.mem_append_right _ (List.mem_cons_of_mem x h2))

theorem mem_replaceFirst_flag_exists {l : List Item} {a : Item} {b : Bool}
    {i : Item} (hi : i ∈ replaceFirst l a (setEquippedFlag a b)) :
    ∃ j ∈ l, i.quantity = j.quantity ∧ i.max_stack = j.max_stack := by
  rcases mem_replaceFirst_cases hi with h1 | ⟨h2, h3⟩
  · exact ⟨i, h1, rfl, rfl⟩
  · exact ⟨a, h2, by rw [h3]; exact setEquippedFlag_quantity a b,
      by rw [h3]; exact setEquippedFlag_max_stack a b⟩

theorem qtyInvariant_items_replaceFlag {l : List Item} {a : Item} {b : Bool}
    (h : ∀ i ∈ l, 1 ≤ i.quantity ∧ i.quantity ≤ i.max_stack) :
    ∀ i ∈ replaceFirst l a (setEquippedFlag a b),
      1 ≤ i.quantity ∧ i.quantity ≤ i.max_stack := by
  intro i hi
  obtain ⟨j, hj, hq, hm⟩ := mem_replaceFirst_flag_exists hi
  rw [hq, hm]
  exact h j hj

theorem qtyInvariant_unequip_armor {inv : Inventory} (t : ArmorType)
    (h : QtyInvariant inv) : QtyInvariant (unequip_armor inv t).2 := by
  cases hb : inv.equipped_armor t with
  | none =>
    rw [unequip_armor_eq_none hb]
    exact h
  | some b =>
    rw [unequip_armor_eq_some hb]
    exact qtyInvariant_items_replaceFlag h

theorem qtyInvariant_unequip_weapon {inv : Inventory}
    (h : QtyInvariant inv) : QtyInvariant (unequip_weapon inv).2 := by
  cases hb : inv.equipped_weapon with
  | none =>
    rw [unequip_weapon_eq_none hb]
    exact h
  | some b =>
    rw [unequip_weapon_eq_some hb]
    exact qtyInvariant_items_replaceFlag h

theorem qtyInvariant_equip_armor {inv : Inventory} (armor : Item)
    (h : QtyInvariant inv) : QtyInvariant (equip_armor inv armor).2 := by
  cases hat : armor.armorTypeOf with
  | none =>
    rw [equip_armor_eq_none hat]
    exact h
  | some t =>
    by_cases hmem : armor ∈ inv.items
    · rw [equip_armor_eq_mem hat hmem]
      have h1 : QtyInvariant (armorAutoUnequipped inv t) := by
        unfold armorAutoUnequipped
        by_cases hocc : (inv.equipped_armor t).isSome
        · rw [if_pos hocc]
          exact qtyInvariant_unequip_armor t h
        · rw [if_neg hocc]
          exact h
      show QtyInvariant (equipArmorResult inv t armor)
      unfold equipArmorResult
      exact qtyInvariant_items_replaceFlag h1
    · rw [equip_armor_eq_not_mem hat hmem]
      exact h

theorem qtyInvariant_equip_weapon {inv : Inventory} (w : Item)
    (h : QtyInvariant inv) : QtyInvariant (equip_weapon inv w).2 := by
  by_cases hmem : w ∈ inv.items
  · rw [equip_weapon_eq_mem hmem]
    have h1 : QtyInvariant (weaponAutoUnequipped inv) := by
      unfold weaponAutoUnequipped
      by_cases hocc : inv.equipped_weapon.isSome
      · rw [if_pos hocc]
        exact qtyInvariant_unequip_weapon h
      · rw [if_neg hocc]
        exact h
    show QtyInvariant (equipWeaponResult inv w)
    unfold equipWeaponResult
    exact qtyInvariant_items_replaceFlag h1
  · rw [equip_weapon_eq_not_mem hmem]
    exact h

theorem qtyInvariant_use_consumable {inv : Inventory} (c : Item)
    (h : QtyInvariant inv) : QtyInvariant (use_consumable inv c).2 := by
  by_cases hmem : c ∈ inv.items
  · rw [use_consumable_eq_mem hmem]
    exact qtyInvariant_remove h
  · rw [use_consumable_eq_not_mem hmem]
    exact h

theorem reachQ_qtyInvariant {inv : Inventory} (h : ReachQ inv) :
    QtyInvariant inv := by
  induction h with
  | empty => exact qtyInvariant_empty
  | add item h hq hs ih => exact qtyInvariant_add hq hs ih
  | remove item q h ih => exact qtyInvariant_remove ih
  | equipArmorStep armor h ih => exact qtyInvariant_equip_armor armor ih
  | unequipArmorStep t h ih => exact qtyInvariant_unequip_armor t ih
  | equipWeaponStep w h ih => exact qtyInvariant_equip_weapon w ih
  | unequipWeaponStep h ih => exact qtyInvariant_unequip_weapon ih
  | useConsumableStep c h ih => exact qtyInvariant_use_consumable c ih

/-! ## Preservation of the equip-slot invariant (C7) -/

theorem isWeaponInstance_armorTypeOf {a : Item}
    (h : a.isWeaponInstance = true) : a.armorTypeOf = none := by
  cases hd : a.data <;> simp_all [Item.isWeaponInstance, Item.armorTypeOf]

theorem armorTypeOf_isConsumableInstance {a : Item} {t : ArmorType}
    (h : a.armorTypeOf = some t) : a.isConsumableInstance = false := by
  cases hd : a.data <;> simp_all [Item.armorTypeOf, Item.isConsumableInstance]

theorem isWeaponInstance_isConsumableInstance {a : Item}
    (h : a.isWeaponInstance = true) : a.isConsumableInstance = false := by
  cases hd : a.data <;>
    simp_all [Item.isWeaponInstance, Item.isConsumableInstance]

theorem ne_of_armorTypeOf_ne {a b : Item}
    (h : a.armorTypeOf ≠ b.armorTypeOf) : a ≠ b :=
  fun he => h (he ▸ rfl)

theorem slotsWF_empty : SlotsWellFormed emptyInventory := by
  constructor
  · intro t a h
    exact Option.noConfusion h
  · intro w h
    exact Option.noConfusion h

theorem slotsWF_add {inv : Inventory} (item : Item) (h : SlotsWellFormed inv) :
    SlotsWellFormed (add_item inv item).2 := by
  obtain ⟨hA, hW⟩ := h
  have happ : SlotsWellFormed
      { inv with
        items := inv.items ++ [item]
        current_weight :=
          inv.current_weight + item.weight * (item.quantity : ℚ) } := by
    refine ⟨fun t a ha => ?_, fun w hw2 => ?_⟩
    · have ha1 : inv.equipped_armor t = some a := ha
      obtain ⟨hmem, hat⟩ := hA t a ha1
      exact ⟨List.mem_append_left _ hmem, hat⟩
    · have hw1 : inv.equipped_weapon = some w := hw2
      obtain ⟨hmem, hwi⟩ := hW w hw1
      exact ⟨List.mem_append_left _ hmem, hwi⟩
  unfold add_item
  by_cases hw :
      MAX_WEIGHT < inv.current_weight + item.weight * (item.quantity : ℚ)
  · rw [if_pos hw]
    exact ⟨hA, hW⟩
  · rw [if_neg hw]
    by_cases hc : item.item_type = ItemType.CONSUMABLE
    · rw [if_pos hc]
      cases hst : stackFirst inv.items item with
      | none =>
        by_cases hcap3 : MAX_CONSUMABLES ≤ consumableEntryCount inv.items
        · rw [if_pos hcap3]
          exact ⟨hA, hW⟩
        · rw [if_neg hcap3]
          exact happ
      | some items1 =>
        refine ⟨fun t a ha => ?_, fun w hw2 => ?_⟩
        · have ha1 : inv.equipped_armor t = some a := ha
          obtain ⟨hmem, hat⟩ := hA t a ha1
          refine ⟨mem_stackFirst_of_no_stack hst hmem ?_, hat⟩
          exact canStackInto_eq_false_of_not_consumable
            (armorTypeOf_isConsumableInstance hat)
        · have hw1 : inv.equipped_weapon = some w := hw2
          obtain ⟨hmem, hwi⟩ := hW w hw1
          refine ⟨mem_stackFirst_of_no_stack hst hmem ?_, hwi⟩
          exact canStackInto_eq_false_of_not_consumable
            (isWeaponInstance_isConsumableInstance hwi)
    · rw [if_neg hc]
      exact happ

theorem slotsWF_remove {inv : Inventory} {item : Item} {q : Nat}
    (h : SlotsWellFormed inv)
    (hgA : ∀ t, inv.equipped_armor t ≠ some item)
    (hgW : inv.equipped_weapon ≠ some item) :
    SlotsWellFormed (remove_item inv item q).2 := by
  obtain ⟨hA, hW⟩ := h
  unfold remove_item
  cases hrem : removeFirst inv.items item q with
  | none => exact ⟨hA, hW⟩
  | some r =>
    obtain ⟨items1, delta⟩ := r
    refine ⟨fun t a ha => ?_, fun w hw2 => ?_⟩
    · have ha1 : inv.equipped_armor t = some a := ha
      obtain ⟨hmem, hat⟩ := hA t a ha1
      have hne : a ≠ item := fun he => hgA t (by rw [← he]; exact ha1)
      exact ⟨mem_removeFirst_of_ne hrem hmem hne, hat⟩
    · have hw1 : inv.equipped_weapon = some w := hw2
      obtain ⟨hmem, hwi⟩ := hW w hw1
      have hne : w ≠ item := fun he => hgW (by rw [← he]; exact hw1)
      exact ⟨mem_removeFirst_of_ne hrem hmem hne, hwi⟩

theorem slotsWF_unequip_armor {inv : Inventory} (t : ArmorType)
    (h : SlotsWellFormed inv) : SlotsWellFormed (unequip_armor inv t).2 := by
  obtain ⟨hA, hW⟩ := h
  cases hb : inv.equipped_armor t with
  | none =>
    rw [unequip_armor_eq_none hb]
    exact ⟨hA, hW⟩
  | some b =>
    obtain ⟨hbmem, hbt⟩ := hA t b hb
    rw [unequip_armor_eq_some hb]
    refine ⟨fun s a ha => ?_, fun w hw2 => ?_⟩
    · have ha1 : updateSlot inv.equipped_armor t none s = some a := ha
      unfold updateSlot at ha1
      by_cases hst : s = t
      · rw [if_pos hst] at ha1
        exact Option.noConfusion ha1
      · rw [if_neg hst] at ha1
        obtain ⟨hmem, hat⟩ := hA s a ha1
        refine ⟨mem_replaceFirst_of_ne hmem ?_, hat⟩
        exact ne_of_armorTypeOf_ne
          (by rw [hat, hbt]; exact fun he => hst (Option.some.inj he))
    · have hw1 : inv.equipped_weapon = some w := hw2
      obtain ⟨hmem, hwi⟩ := hW w hw1
      refine ⟨mem_replaceFirst_of_ne hmem ?_, hwi⟩
      exact ne_of_armorTypeOf_ne
        (by rw [isWeaponInstance_armorTypeOf hwi, hbt];
            exact fun he => Option.noConfusion he)

theorem slotsWF_unequip_weapon {inv : Inventory}
    (h : SlotsWellFormed inv) : SlotsWellFormed (unequip_weapon inv).2 := by
  obtain ⟨hA, hW⟩ := h
  cases hb : inv.equipped_weapon with
  | none =>
    rw [unequip_weapon_eq_none hb]
    exact ⟨hA, hW⟩
  | some b =>
    obtain ⟨hbmem, hbw⟩ := hW b hb
    rw [unequip_weapon_eq_some hb]
    refine ⟨fun s a ha => ?_, fun w hw2 => ?_⟩
    · have ha1 : inv.equipped_armor s = some a := ha
      obtain ⟨hmem, hat⟩ := hA s a ha1
      refine ⟨mem_replaceFirst_of_ne hmem ?_, hat⟩
      exact ne_of_armorTypeOf_ne
        (by rw [hat, isWeaponInstance_armorTypeOf hbw];
            exact fun he => Option.noConfusion he)
    · exact Option.noConfusion hw2

theorem slotsWF_equip_armor {inv : Inventory} (armor : Item)
    (h : SlotsWellFormed inv) : SlotsWellFormed (equip_armor inv armor).2 := by
  cases hat : armor.armorTypeOf with
  | none =>
    rw [equip_armor_eq_none hat]
    exact h
  | some t =>
    by_cases hmem : armor ∈ inv.items
    · rw [equip_armor_eq_mem hat hmem]
      have hswf1 : SlotsWellFormed (armorAutoUnequipped inv t) := by
        unfold armorAutoUnequipped
        by_cases hocc : (inv.equipped_armor t).isSome
        · rw [if_pos hocc]
          exact slotsWF_unequip_armor t h
        · rw [if_neg hocc]
          exact h
      have hap_type : (armorPassed inv t armor).armorTypeOf = some t := by
        unfold armorPassed
        by_cases hocc2 : inv.equipped_armor t = some armor
        · rw [if_pos hocc2, setEquippedFlag_armorTypeOf]
          exact hat
        · rw [if_neg hocc2]
          exact hat
      have hap_mem :
          armorPassed inv t armor ∈ (armorAutoUnequipped inv t).items := by
        unfold armorPassed armorAutoUnequipped
        cases hocc : inv.equipped_armor t with
        | none =>
          rw [if_neg (by simp)]
          rw [if_neg fun he => Option.noConfusion he]
          exact hmem
        | some b =>
          rw [if_pos Option.isSome_some, unequip_armor_eq_some hocc]
          by_cases heq : b = armor
          · rw [if_pos (by rw [heq]), ← heq]
            exact mem_replaceFirst_self _ (by rw [heq]; exact hmem)
          · rw [if_neg fun he => heq (Option.some.inj he)]
            exact mem_replaceFirst_of_ne hmem fun he => heq he.symm
      refine ⟨fun s a ha => ?_, fun w hw2 => ?_⟩
      · have ha1 : updateSlot (armorAutoUnequipped inv t).equipped_armor t
            (some (setEquippedFlag (armorPassed inv t armor) true)) s =
              some a := ha
        unfold updateSlot at ha1
        by_cases hst : s = t
        · rw [if_pos hst] at ha1
          have ha2 := Option.some.inj ha1
          refine ⟨?_, ?_⟩
          · rw [← ha2]
            exact mem_replaceFirst_self _ hap_mem
          · rw [← ha2, setEquippedFlag_armorTypeOf, hap_type, hst]
        · rw [if_neg hst] at ha1
          obtain ⟨hmem2, hat2⟩ := hswf1.1 s a ha1
          refine ⟨mem_replaceFirst_of_ne hmem2 ?_, hat2⟩
          exact ne_of_armorTypeOf_ne
            (by rw [hat2, hap_type];
                exact fun he => hst (Option.some.inj he))
      · have hw1 : (armorAutoUnequipped inv t).equipped_weapon = some w := hw2
        obtain ⟨hmem2, hwi2⟩ := hswf1.2 w hw1
        refine ⟨mem_replaceFirst_of_ne hmem2 ?_, hwi2⟩
        exact ne_of_armorTypeOf_ne
          (by rw [isWeaponInstance_armorTypeOf hwi2, hap_type];
              exact fun he => Option.noConfusion he)
    · rw [equip_armor_eq_not_mem hat hmem]
      exact h

theorem slotsWF_equip_weapon {inv : Inventory} {w : Item}
    (hwi : w.isWeaponInstance = true) (h : SlotsWellFormed inv) :
    SlotsWellFormed (equip_weapon inv w).2 := by
  by_cases hmem : w ∈ inv.items
  · rw [equip_weapon_eq_mem hmem]
    have hswf1 : SlotsWellFormed (weaponAutoUnequipped inv) := by
      unfold weaponAutoUnequipped
      by_cases hocc : inv.equipped_weapon.isSome
      · rw [if_pos hocc]
        exact slotsWF_unequip_weapon h
      · rw [if_neg hocc]
        exact h
    have hwp_weapon : (weaponPassed inv w).isWeaponInstance = true := by
      unfold weaponPassed
      by_cases hocc2 : inv.equipped_weapon = some w
      · rw [if_pos hocc2, setEquippedFlag_isWeaponInstance]
        exact hwi
      · rw [if_neg hocc2]
        exact hwi
    have hwp_mem : weaponPassed inv w ∈ (weaponAutoUnequipped inv).items := by
      unfold weaponPassed weaponAutoUnequipped
      cases hocc : inv.equipped_weapon with
      | none =>
        rw [if_neg (by simp)]
        rw [if_neg fun he => Option.noConfusion he]
        exact hmem
      | some b =>
        rw [if_pos Option.isSome_some, unequip_weapon_eq_some hocc]
        by_cases heq : b = w
        · rw [if_pos (by rw [heq]), ← heq]
          exact mem_replaceFirst_self _ (by rw [heq]; exact hmem)
        · rw [if_neg fun he => heq (Option.some.inj he)]
          exact mem_replaceFirst_of_ne hmem fun he => heq he.symm
    refine ⟨fun s a ha => ?_, fun w2 hw2 => ?_⟩
    · have ha1 : (weaponAutoUnequipped inv).equipped_armor s = some a := ha
      obtain ⟨hmem2, hat2⟩ := hswf1.1 s a ha1
      refine ⟨mem_replaceFirst_of_ne hmem2 ?_, hat2⟩
      exact ne_of_armorTypeOf_ne
        (by rw [hat2, isWeaponInstance_armorTypeOf hwp_weapon];
            exact fun he => Option.noConfusion he)
    · have hw3 : some (setEquippedFlag (weaponPassed inv w) true) = some w2 :=
        hw2
      have hw4 := Option.some.inj hw3
      refine ⟨?_, ?_⟩
      · rw [← hw4]
        exact mem_replaceFirst_self _ hwp_mem
      · rw [← hw4, setEquippedFlag_isWeaponInstance]
        exact hwp_weapon
  · rw [equip_weapon_eq_not_mem hmem]
    exact h

theorem slotsWF_use_consumable {inv : Inventory} {c : Item}
    (hc : c.isConsumableInstance = true) (h : SlotsWellFormed inv) :
    SlotsWellFormed (use_consumable inv c).2 := by
  by_cases hmem : c ∈ inv.items
  · rw [use_consumable_eq_mem hmem]
    refine slotsWF_remove h (fun t he => ?_) (fun he => ?_)
    · obtain ⟨_, hat⟩ := h.1 t c he
      exact absurd hc (by simp [armorTypeOf_isConsumableInstance hat])
    · obtain ⟨_, hwi⟩ := h.2 c he
      exact absurd hc (by simp [isWeaponInstance_isConsumableInstance hwi])
  · rw [use_consumable_eq_not_mem hmem]
    exact h

theorem reachE_slotsWF {inv : Inventory} (h : ReachE inv) :
    SlotsWellFormed inv := by
  induction h with
  | empty => exact slotsWF_empty
  | add item h ih => exact slotsWF_add item ih
  | remove item q h hgA hgW ih => exact slotsWF_remove ih hgA hgW
  | equipArmorStep armor h ih => exact slotsWF_equip_armor armor ih
  | unequipArmorStep t h ih => exact slotsWF_unequip_armor t ih
  | equipWeaponStep w hw2 h ih => exact slotsWF_equip_weapon hw2 ih
  | unequipWeaponStep h ih => exact slotsWF_unequip_weapon ih
  | useConsumableStep c hc h ih => exact slotsWF_use_consumable hc ih

/-! ## Helper lemmas about characters -/

theorem set_health_health (c : Character) (v : Int) :
    (set_health c v).health = max 0 v := by
  unfold set_health
  by_cases h : v < 0
  · rw [if_pos h]
    exact (max_eq_left h.le).symm
  · rw [if_neg h]
    exact (max_eq_right (not_lt.mp h)).symm

theorem boss_attack_true_health (self enemy : Character) :
    (boss_attack true self enemy).2.2.health =
      max 0 (max 0 (enemy.health - attackDamage self) - attackDamage self) := by
  show (take_damage (set_health enemy (enemy.health - attackDamage self))
      (attackDamage self)).health = _
  unfold take_damage
  rw [set_health_health]

/-! ## Claims about characters -/

/-- C1 (code_bug evaluation): `add_experience` recomputes
`experience // 100` from the total on every call and grants that many
level-ups again, so thresholds already crossed are re-granted by later
calls.  A fresh level-1 character gaining 100 XP twice crosses exactly the
two thresholds 100 and 200 — the spec's rule would leave it at level 3 —
but the code takes it to level 4 (one level-up from the first call, then
two more from the second).  The spec's own single-call example (+250 from
level 1 giving two level-ups, level 3) does hold. -/
theorem C1_addExperience_regrants_levels :
    (add_experience (add_experience freshHero 100) 100).level = 4 ∧
    (add_experience (add_experience freshHero 100) 100).experience = 200 ∧
    (add_experience freshHero 250).level = 3 := by
  decide

/-- C4: for every character and every damage amount, including amounts
strictly greater than the current health, `take_damage` sets health to
`max(0, health − amount)`, which is never negative. -/
theorem C4_take_damage_clamped (c : Character) (amount : Int) :
    (take_damage c amount).health = max 0 (c.health - amount) ∧
    0 ≤ (take_damage c amount).health :=
  ⟨rfl, le_max_left 0 _⟩

/-- C4 witness: a concrete overkill hit — 35 damage against 30 health
clamps to 0. -/
theorem C4_take_damage_clamped_witness :
    (take_damage scenarioGoblin 35).health = max 0 (scenarioGoblin.health - 35) ∧
    0 ≤ (take_damage scenarioGoblin 35).health :=
  C4_take_damage_clamped scenarioGoblin 35

/-- C5: `attack` returns base damage plus the equipped weapon's bonus
(0 without a weapon), clamps the target's health downward by that amount,
and leaves the attacker untouched; concretely, the Rock-equipped damage-10
player attacking the 30-health Goblin deals 15 and leaves it at 15. -/
theorem C5_attack_damage_and_scenario :
    (∀ a t : Character,
      (attack a t).1 =
        a.damage + (match a.weapon with | some w => w.damage_bonus | none => 0) ∧
      (attack a t).2.1 = a ∧
      (attack a t).2.2.health = max 0 (t.health - attackDamage a)) ∧
    (attack scenarioPlayer scenarioGoblin).1 = 15 ∧
    (attack scenarioPlayer scenarioGoblin).2.2.health = 15 ∧
    (attack scenarioPlayer scenarioGoblin).2.1 = scenarioPlayer := by
  refine ⟨fun a t => ⟨rfl, rfl, set_health_health t _⟩, by decide, by decide,
    by decide⟩

/-- C6: over the five weapon kinds plus the no-weapon case, the matchup
resolver is total (always yields one of the three verdicts), its critical
and not-effective verdicts coincide exactly with the beats/loses rows of
the spec's fixed table, every unlisted pair (including no-weapon) is
neutral, and the relation is antisymmetric: if A beats B then B does not
beat A, both in the table and for the resolver. -/
theorem C6_resolver_total_neutral_antisymmetric :
    (∀ a b : Option WeaponKind,
      resolve a b = .critical ∨ resolve a b = .notEffective ∨
        resolve a b = .neutral) ∧
    (∀ a b : Option WeaponKind, resolve a b = .critical ↔ tableBeats a b = true) ∧
    (∀ a b : Option WeaponKind,
      resolve a b = .notEffective ↔ tableLoses a b = true) ∧
    (∀ a b : Option WeaponKind,
      tableBeats a b = false → tableLoses a b = false → resolve a b = .neutral) ∧
    (∀ a b : Option WeaponKind, tableBeats a b = true → tableBeats b a ≠ true) ∧
    (∀ a b : Option WeaponKind,
      resolve a b = .critical → resolve b a ≠ .critical) := by
  decide

/-- C6 witness: concrete instances of the resolver facts — (Rock, Lizard)
is unlisted and resolves neutral; Rock beats Scissors and not
conversely. -/
theorem C6_resolver_witness :
    tableBeats (some .rock) (some .lizard) = false ∧
    tableLoses (some .rock) (some .lizard) = false ∧
    resolve (some .rock) (some .lizard) = .neutral ∧
    tableBeats (some .rock) (some .scissors) = true ∧
    tableBeats (some .scissors) (some .rock) ≠ true ∧
    resolve (some .rock) (some .scissors) = .critical ∧
    resolve (some .scissors) (some .rock) ≠ .critical := by
  refine ⟨by decide, by decide,
    C6_resolver_total_neutral_antisymmetric.2.2.2.1 (some .rock) (some .lizard)
      (by decide) (by decide),
    by decide,
    C6_resolver_total_neutral_antisymmetric.2.2.2.2.1 (some .rock)
      (some .scissors) (by decide),
    by decide,
    C6_resolver_total_neutral_antisymmetric.2.2.2.2.2 (some .rock)
      (some .scissors) (by decide)⟩

/-- C9: with the 20% roll forced to succeed, `Boss.attack` applies a
second damage instance equal to the base attack to the same target and
returns the sum of both; a 50-damage base attack returns 100. -/
theorem C9_boss_forced_critical_doubles :
    (∀ self enemy : Character,
      (boss_attack true self enemy).1 = attackDamage self + attackDamage self ∧
      (boss_attack true self enemy).2.1 = self ∧
      (boss_attack true self enemy).2.2.health =
        max 0 (max 0 (enemy.health - attackDamage self) - attackDamage self)) ∧
    (boss_attack true bossFifty bossTarget).1 = 100 := by
  refine ⟨fun self enemy => ⟨rfl, rfl, boss_attack_true_health self enemy⟩,
    by decide⟩

/-- C10: `attack` returns the computed damage regardless of the target's
remaining health; the health actually removed is `min(damage, prior
health)`, strictly less than the reported damage on overkill; and a forced
Boss critical still reports its doubled total against a 0-health target. -/
theorem C10_reported_vs_removed_damage (a t : Character) :
    (attack a t).1 = attackDamage a ∧
    t.health - (attack a t).2.2.health = min (attackDamage a) t.health ∧
    (t.health < attackDamage a →
      t.health - (attack a t).2.2.health < (attack a t).1) ∧
    (t.health = 0 → 0 ≤ attackDamage a →
      (boss_attack true a t).1 = 2 * attackDamage a ∧
      (boss_attack true a t).2.2.health = 0) := by
  have h2 : (attack a t).2.2.health = max 0 (t.health - attackDamage a) :=
    set_health_health t _
  refine ⟨rfl, by rw [h2]; omega, ?_, ?_⟩
  · intro hlt
    rw [h2]
    show t.health - max 0 (t.health - attackDamage a) < attackDamage a
    omega
  · intro h0 hd
    refine ⟨by show attackDamage a + attackDamage a = 2 * attackDamage a; ring, ?_⟩
    rw [boss_attack_true_health]
    omega

/-- C2 (counterexample): the weight invariant fails on the code.  Merging
a same-name consumable whose per-unit weight differs (weight 2 versus the
held stack's weight 1) charges the incoming weight while the stack keeps
its own, so `current_weight` (3) no longer equals the item-weight sum (2);
and with a negatively-weighted item (constructible, nothing validates
weights) the sequence add(100kg), add(−5kg), add(5kg), remove(−5kg) drives
`current_weight` to 105, past the 100kg cap. -/
theorem C2_weight_counterexample :
    (add_item (add_item emptyInventory potionA).2 potionB).2.current_weight ≠
      sumWeights
        (add_item (add_item emptyInventory potionA).2 potionB).2.items ∧
    MAX_WEIGHT <
      (remove_item
        (add_item (add_item (add_item emptyInventory heavyCrate).2
          negFeather).2 smallRock).2 negFeather 1).2.current_weight := by
  constructor
  · have h1 : (add_item emptyInventory potionA).2 =
        (⟨[potionA], fun _ => none, none, 1⟩ : Inventory) := by
      norm_num +decide [add_item, emptyInventory, potionA, MAX_WEIGHT,
        MAX_CONSUMABLES, stackFirst, consumableEntryCount]
    rw [h1]
    norm_num +decide [add_item, potionA, potionB, MAX_WEIGHT, stackFirst,
      canStackInto, Item.isConsumableInstance, sumWeights]
  · have h1 : (add_item emptyInventory heavyCrate).2 =
        (⟨[heavyCrate], fun _ => none, none, 100⟩ : Inventory) := by
      norm_num +decide [add_item, emptyInventory, heavyCrate, MAX_WEIGHT]
    have h2 : (add_item (⟨[heavyCrate], fun _ => none, none, 100⟩ :
        Inventory) negFeather).2 =
        (⟨[heavyCrate, negFeather], fun _ => none, none, 95⟩ : Inventory) := by
      norm_num +decide [add_item, heavyCrate, negFeather, MAX_WEIGHT]
    have h3 : (add_item (⟨[heavyCrate, negFeather], fun _ => none, none, 95⟩ :
        Inventory) smallRock).2 =
        (⟨[heavyCrate, negFeather, smallRock], fun _ => none, none, 100⟩ :
          Inventory) := by
      norm_num +decide [add_item, heavyCrate, negFeather, smallRock,
        MAX_WEIGHT]
    rw [h1, h2, h3]
    norm_num +decide [remove_item, removeFirst, heavyCrate, negFeather,
      smallRock, MAX_WEIGHT]

/-- C2 (amended): for every fixed per-name assignment of non-negative
weights, after any sequence of `add_item`/`remove_item` calls whose added
items draw their weights from that assignment, `current_weight` equals the
sum over held items of weight × quantity and never exceeds the 100kg
capacity. -/
theorem C2_weight_invariant_amended {W : String → ℚ} {inv : Inventory}
    (h : ReachAR W inv) :
    inv.current_weight = sumWeights inv.items ∧
    inv.current_weight ≤ MAX_WEIGHT :=
  ⟨(reachAR_weightInvariant h).2.1, (reachAR_weightInvariant h).2.2⟩

/-- C2 witness: the invariant holds concretely after adding one potion. -/
theorem C2_weight_invariant_witness :
    (add_item emptyInventory potionA).2.current_weight =
      sumWeights (add_item emptyInventory potionA).2.items ∧
    (add_item emptyInventory potionA).2.current_weight ≤ MAX_WEIGHT :=
  C2_weight_invariant_amended
    (ReachAR.add potionA (ReachAR.empty (fun _ => 1)) rfl
      (by norm_num [potionA]))

/-- C3 (counterexample): the stack bound fails on the code.  The merge
branch fires whenever the existing stack has any spare capacity
(`quantity < max_stack`) and then adds the full incoming quantity, so
adding 3 units of a consumable to a stack of 4 (max stack 5) leaves a
stack of 7 > 5. -/
theorem C3_stack_overflow_counterexample :
    ¬ QtyInvariant (add_item (add_item emptyInventory potionFour).2
      potionThree).2 := by
  have h1 : (add_item emptyInventory potionFour).2 =
      (⟨[potionFour], fun _ => none, none, 0⟩ : Inventory) := by
    norm_num +decide [add_item, emptyInventory, potionFour, MAX_WEIGHT,
      MAX_CONSUMABLES, stackFirst, consumableEntryCount]
  have h2 : (add_item (⟨[potionFour], fun _ => none, none, 0⟩ : Inventory)
      potionThree).2 =
      (⟨[{ potionFour with quantity := 7 }], fun _ => none, none, 0⟩ :
        Inventory) := by
    norm_num +decide [add_item, potionFour, potionThree, MAX_WEIGHT,
      stackFirst, canStackInto, Item.isConsumableInstance]
  intro h
  rw [h1, h2] at h
  have hb := h { potionFour with quantity := 7 } (List.mem_singleton_self _)
  have hc : (7 : Nat) ≤ 5 := hb.2
  omega

/-- C3 (amended): if every `add_item` call adds a single unit
(`quantity = 1`, with a positive max-stack bound), then after any sequence
of public inventory operations every held item satisfies
1 ≤ quantity ≤ max_stack. -/
theorem C3_stack_bounds_amended {inv : Inventory} (h : ReachQ inv) :
    ∀ i ∈ inv.items, 1 ≤ i.quantity ∧ i.quantity ≤ i.max_stack :=
  reachQ_qtyInvariant h

/-- C3 witness: the bounds hold concretely after adding one potion unit. -/
theorem C3_stack_bounds_witness :
    1 ≤ potionUnit.quantity ∧ potionUnit.quantity ≤ potionUnit.max_stack :=
  C3_stack_bounds_amended
    (ReachQ.add potionUnit ReachQ.empty rfl (by decide)) potionUnit
    (by
      have h1 : (add_item emptyInventory potionUnit).2.items = [potionUnit] := by
        norm_num +decide [add_item, emptyInventory, potionUnit, MAX_WEIGHT,
          MAX_CONSUMABLES, stackFirst, consumableEntryCount]
      rw [h1]
      exact List.mem_singleton_self _)

/-- C7 (counterexample): the equip-slot invariant fails on the code, as
the spec's own "caller must unequip first" caveat admits — add a helmet,
equip it, then remove it (the caller's reference now carries the raised
flag): the helmet slot still references the helmet while the item list is
empty. -/
theorem equippedHelmetInv_eval :
    equippedHelmetInv =
      (⟨[setEquippedFlag helmetItem true],
        updateSlot (fun _ => none) ArmorType.HELMET
          (some (setEquippedFlag helmetItem true)), none, 1⟩ : Inventory) := by
  have h1 : (add_item emptyInventory helmetItem).2 =
      (⟨[helmetItem], fun _ => none, none, 1⟩ : Inventory) := by
    norm_num +decide [add_item, emptyInventory, helmetItem, MAX_WEIGHT]
  unfold equippedHelmetInv
  rw [h1, equip_armor_eq_mem
    (show helmetItem.armorTypeOf = some ArmorType.HELMET from rfl)
    (List.mem_singleton_self _)]
  norm_num +decide [equipArmorResult, armorAutoUnequipped, armorPassed,
    replaceFirst, updateSlot, helmetItem, setEquippedFlag]

theorem removedHelmetInv_eval :
    removedHelmetInv =
      (⟨[], updateSlot (fun _ => none) ArmorType.HELMET
        (some (setEquippedFlag helmetItem true)), none, 0⟩ : Inventory) := by
  unfold removedHelmetInv
  rw [equippedHelmetInv_eval]
  norm_num +decide [remove_item, removeFirst, setEquippedFlag, helmetItem,
    updateSlot]

theorem C7_equip_slot_counterexample :
    removedHelmetInv.equipped_armor ArmorType.HELMET =
      some (setEquippedFlag helmetItem true) ∧
    setEquippedFlag helmetItem true ∉ removedHelmetInv.items := by
  rw [removedHelmetInv_eval]
  constructor
  · simp [updateSlot]
  · simp

/-- C7 (amended): for every sequence of public inventory operations in
which `remove_item` is never applied to a currently equipped item (and the
`equip_weapon` / `use_consumable` arguments respect the source's `Weapon` /
`Consumable` annotations), every item referenced by an armor slot or the
weapon slot is present in the items collection. -/
theorem C7_equip_slots_in_collection_amended {inv : Inventory}
    (h : ReachE inv) :
    (∀ t a, inv.equipped_armor t = some a → a ∈ inv.items) ∧
    (∀ w, inv.equipped_weapon = some w → w ∈ inv.items) :=
  ⟨fun t a ha => ((reachE_slotsWF h).1 t a ha).1,
    fun w hw => ((reachE_slotsWF h).2 w hw).1⟩

/-- C7 witness: after adding and equipping the helmet, the equipped helmet
is in the collection. -/
theorem C7_equip_slots_witness :
    setEquippedFlag helmetItem true ∈ equippedHelmetInv.items :=
  (C7_equip_slots_in_collection_amended
    (ReachE.equipArmorStep helmetItem (ReachE.add helmetItem ReachE.empty))).1
    ArmorType.HELMET (setEquippedFlag helmetItem true)
    (by
      show equippedHelmetInv.equipped_armor ArmorType.HELMET =
        some (setEquippedFlag helmetItem true)
      rw [equippedHelmetInv_eval]
      simp [updateSlot])

theorem consumableEntryCount_ge_of_dedup {l : List Item}
    (h : 3 ≤ (((l.filter (fun i => i.item_type == ItemType.CONSUMABLE)).map
      (fun i => i.name)).dedup).length) :
    3 ≤ consumableEntryCount l := by
  have h1 := List.Sublist.length_le (List.dedup_sublist
    ((l.filter (fun i => i.item_type == ItemType.CONSUMABLE)).map
      (fun i => i.name)))
  rw [List.length_map] at h1
  exact le_trans h h1

/-- C8: adding a consumable of a fresh name (no held consumable stack
shares it) to an inventory already holding at least three distinct
consumable types returns `False` and performs no mutation at all — the
operation returns the inventory unchanged, whether it is stopped by the
weight check or by the consumable-type cap. -/
theorem C8_consumable_cap_rejects (inv : Inventory) (item : Item)
    (hty : item.item_type = ItemType.CONSUMABLE)
    (hcap : 3 ≤ (((inv.items.filter
      (fun i => i.item_type == ItemType.CONSUMABLE)).map
        (fun i => i.name)).dedup).length)
    (hfresh : ∀ i ∈ inv.items, i.isConsumableInstance = true →
      i.name ≠ item.name) :
    add_item inv item = (false, inv) := by
  unfold add_item
  by_cases hw :
      MAX_WEIGHT < inv.current_weight + item.weight * (item.quantity : ℚ)
  · rw [if_pos hw]
  · rw [if_neg hw, if_pos hty]
    rw [stackFirst_eq_none
      fun i hi => canStackInto_eq_false_of_name fun hc => hfresh i hi hc]
    rw [if_pos (show MAX_CONSUMABLES ≤ consumableEntryCount inv.items from
      consumableEntryCount_ge_of_dedup hcap)]

/-- C8 witness: an inventory holding three distinct consumable types
rejects a fourth distinct type without mutation. -/
theorem C8_consumable_cap_witness :
    add_item threeTypesInv potD = (false, threeTypesInv) :=
  C8_consumable_cap_rejects threeTypesInv potD rfl (by decide) (by decide)

/-- C10 witness: a damage-10 attacker against a 3-health target removes
only 3 of the reported 10; against a 0-health target the forced Boss
critical still reports 20. -/
theorem C10_reported_vs_removed_witness :
    threeHealthTarget.health < attackDamage tenAttacker ∧
    threeHealthTarget.health - (attack tenAttacker threeHealthTarget).2.2.health <
      (attack tenAttacker threeHealthTarget).1 ∧
    zeroHealthTarget.health = 0 ∧ 0 ≤ attackDamage tenAttacker ∧
    (boss_attack true tenAttacker zeroHealthTarget).1 =
      2 * attackDamage tenAttacker ∧
    (boss_attack true tenAttacker zeroHealthTarget).2.2.health = 0 := by
  have h := C10_reported_vs_removed_damage tenAttacker threeHealthTarget
  have h0 := C10_reported_vs_removed_damage tenAttacker zeroHealthTarget
  exact ⟨by decide, h.2.2.1 (by decide), by decide, by decide,
    (h0.2.2.2 (by decide) (by decide)).1, (h0.2.2.2 (by decide) (by decide)).2⟩

end RPG
